import Mathlib

/-!
Verification of the Todo Record Service.

The data model is the Todo entity (id, title, nullable description, completed
flag, created_at and updated_at timestamps).  Timestamps are modelled as
natural numbers; the database is a list of todos together with the next id to
be assigned by storage and the current clock value.  The partial-update input
represents the presence-versus-null distinction with nested options: for the
description field, `none` means the field was omitted, `some none` means it
was explicitly set to null, and `some (some s)` supplies a new string.

The client delete handler is embedded from src/client/src/App.tsx.  The server
handlers are not among the provided sources (only their test files are), so
they are modelled from the specification, as indicated in their doc comments.
-/

/-- The Todo entity (spec section 3; field set matches the records built and
observed in the test files). -/
structure Todo where
  id : Nat
  title : String
  description : Option String
  completed : Bool
  created_at : Nat
  updated_at : Nat
  deriving Repr, DecidableEq

/-- The stored state: the table of todos, the next storage-assigned id, and
the clock value at the last completed operation. -/
structure DB where
  todos : List Todo
  nextId : Nat
  now : Nat
  deriving Repr, DecidableEq

/-- CreateInput sha: title required, description optional and nullable. -/
structure CreateTodoInput where
  title : String
  description : Option String := none
  deriving Repr, DecidableEq

/-- UpdateInput: id plus optional fields.  The outer option records whether
the field was supplied at all; for description the inner option is the
explicit null. -/
structure UpdateTodoInput where
  id : Nat
  title : Option String := none
  description : Option (Option String) := none
  completed : Option Bool := none
  deriving Repr, DecidableEq

/-- The delete response shape. -/
structure DeleteResult where
  success : Bool
  deriving Repr, DecidableEq

/-- The storage collaborator lookup: first record with the given id. -/
def findById (todos : List Todo) (i : Nat) : Option Todo :=
  todos.find? (fun t => t.id == i)

/-- The record built at creation: storage-assigned id, defaulted completed,
both timestamps stamped to now. -/
def newTodo (db : DB) (input : CreateTodoInput) (now : Nat) : Todo :=
  { id := db.nextId, title := input.title, description := input.description,
    completed := false, created_at := now, updated_at := now }

/-- Modelled from the spec: the create handler (spec section 4.2; the file
src/server/src/handlers/create_todo.ts is not among the provided sources).
Assigns id, defaults completed to false, stamps created_at = updated_at = now,
persists and returns the record. -/
def createTodo (db : DB) (input : CreateTodoInput) (now : Nat) : Todo × DB :=
  (newTodo db input now,
   { todos := db.todos ++ [newTodo db input now], nextId := db.nextId + 1, now := now })

/-- Modelled from the spec: the get handler (spec section 4.3; the file
src/server/src/handlers/get_todo.ts is not among the provided sources).
Fails with NotFound if the id is absent, otherwise returns the exact stored
record. -/
def getTodo (db : DB) (i : Nat) : Except String Todo :=
  match findById db.todos i with
  | none => Except.error "Todo not found"
  | some t => Except.ok t

/-- The partial-update merge rule (spec section 4.1 step 3 and 4): existing
values are the defaults, only fields present in the input overwrite them, and
updated_at is always set to now. -/
def mergeTodo (t : Todo) (input : UpdateTodoInput) (now : Nat) : Todo :=
  { t with
    title := input.title.getD t.title
    description := input.description.getD t.description
    completed := input.completed.getD t.completed
    updated_at := now }

/-- Modelled from the spec: the update handler (spec section 4.1; the file
src/server/src/handlers/update_todo.ts is not among the provided sources).
Looks up the record, fails with NotFound leaving the state untouched if the
id is absent, otherwise persists the merge of the existing record with the
supplied fields and returns the persisted record. -/
def updateTodo (db : DB) (input : UpdateTodoInput) (now : Nat) :
    Except String Todo × DB :=
  match findById db.todos input.id with
  | none => (Except.error "Todo not found", db)
  | some t =>
      (Except.ok (mergeTodo t input now),
       { db with
           todos := db.todos.map
             (fun u => if u.id == input.id then mergeTodo t input now else u)
           now := now })

/-- Modelled from the spec: the delete handler (spec section 4.5; the file
src/server/src/handlers/delete_todo.ts is not among the provided sources).
Removes the record if present and reports whether a row was removed; absence
is a normal false outcome, never an error. -/
def deleteTodo (db : DB) (i : Nat) : DeleteResult × DB :=
  ({ success := decide ((db.todos.filter (fun t => !(t.id == i))).length < db.todos.length) },
   { db with todos := db.todos.filter (fun t => !(t.id == i)) })

/-- The client delete handler from src/client/src/App.tsx (handleDeleteTodo,
lines 68 to 75): after the delete mutation resolves, the displayed list is
filtered to drop the todo with the given id.  The response of the mutation is
discarded by the source, which the unused first parameter records. -/
def handleDeleteTodo (_response : DeleteResult) (todos : List Todo) (todoId : Nat) :
    List Todo :=
  todos.filter (fun t => !(t.id == todoId))

/-- The empty initial state. -/
def initDB : DB := { todos := [], nextId := 1, now := 0 }

/-- One service operation performed at a clock value no earlier than the
clock of the state it acts on. -/
inductive Step : DB → DB → Prop where
  | create (db : DB) (input : CreateTodoInput) (now : Nat) (h : db.now ≤ now) :
      Step db (createTodo db input now).2
  | update (db : DB) (input : UpdateTodoInput) (now : Nat) (h : db.now ≤ now) :
      Step db (updateTodo db input now).2
  | delete (db : DB) (i : Nat) : Step db (deleteTodo db i).2

/-- States reachable from the empty state by service operations. -/
inductive Reachable : DB → Prop where
  | init : Reachable initDB
  | step {db db2 : DB} : Reachable db → Step db db2 → Reachable db2

/-- The timestamp invariant: every stored record has updated_at at least
created_at, and no stored timestamp is ahead of the clock. -/
def TimeInv (db : DB) : Prop :=
  ∀ t ∈ db.todos, t.created_at ≤ t.updated_at ∧ t.updated_at ≤ db.now

theorem timeInv_init : TimeInv initDB := by
  intro t ht
  simp [initDB] at ht

theorem timeInv_step {db db2 : DB} (hInv : TimeInv db) (hs : Step db db2) :
    TimeInv db2 := by
  cases hs with
  | create input now h =>
      intro t ht
      simp only [createTodo, List.mem_append, List.mem_singleton] at ht
      rcases ht with ht | rfl
      · exact ⟨(hInv t ht).1, le_trans (hInv t ht).2 h⟩
      · exact ⟨le_refl _, le_refl _⟩
  | update input now h =>
      rcases hfind : findById db.todos input.id with _ | t0
      · simpa [updateTodo, hfind] using hInv
      · have ht0 : t0 ∈ db.todos := List.mem_of_find?_eq_some hfind
        have hdb2 : (updateTodo db input now).2 =
            { db with
               todos := db.todos.map
                (fun u => if u.id == input.id then mergeTodo t0 input now else u)
               now := now } := by
          simp [updateTodo, hfind]
        rw [hdb2]
        intro t ht
        simp only [List.mem_map] at ht
        rcases ht with ⟨u, hu, rfl⟩
        by_cases hc : (u.id == input.id) = true
        · simp only [hc, if_true, mergeTodo]
          exact ⟨le_trans (hInv t0 ht0).1 (le_trans (hInv t0 ht0).2 h), le_refl _⟩
        · simp only [hc, if_false]
          exact ⟨(hInv u hu).1, le_trans (hInv u hu).2 h⟩
  | delete i =>
      intro t ht
      simp only [deleteTodo, List.mem_filter] at ht
      exact hInv t ht.1

theorem reachable_timeInv {db : DB} (h : Reachable db) : TimeInv db := by
  induction h with
  | init => exact timeInv_init
  | step _ hs ih => exact timeInv_step ih hs

/-! Concrete records used by the witnesses, mirroring the fixtures of the
test files. -/

/-- The fixture record of update_todo.test.ts. -/
def exTodo : Todo :=
  { id := 1, title := "Original Todo", description := some "Original description",
    completed := false, created_at := 5, updated_at := 5 }

/-- A record with a null description, as in the second getTodo test. -/
def exTodoNull : Todo :=
  { id := 2, title := "Todo without description", description := none,
    completed := true, created_at := 5, updated_at := 5 }

/-- A one-record state. -/
def exDB : DB := { todos := [exTodo], nextId := 2, now := 5 }

/-- A two-record state. -/
def exDB2 : DB := { todos := [exTodo, exTodoNull], nextId := 3, now := 5 }

/-- The record exTodo after an update that supplied only the title. -/
def exUpdatedTitle : Todo :=
  { id := 1, title := "Only Title Updated", description := some "Original description",
    completed := false, created_at := 5, updated_at := 7 }

/-- Claim C1: for every existing todo and every update input, the update
operation alters only the fields explicitly supplied in the input (plus
updated_at): an omitted field keeps its prior value, a supplied field takes
the supplied value, and id and created_at are never altered. -/
theorem claim_C1 (db : DB) (input : UpdateTodoInput) (now : Nat) (t t2 : Todo)
    (hfind : findById db.todos input.id = some t)
    (hres : (updateTodo db input now).1 = Except.ok t2) :
    (input.title = none → t2.title = t.title) ∧
    (input.description = none → t2.description = t.description) ∧
    (input.completed = none → t2.completed = t.completed) ∧
    (∀ s, input.title = some s → t2.title = s) ∧
    (∀ d, input.description = some d → t2.description = d) ∧
    (∀ b, input.completed = some b → t2.completed = b) ∧
    t2.id = t.id ∧ t2.created_at = t.created_at := by
  have ht2 : t2 = mergeTodo t input now := by
    simp only [updateTodo, hfind, Except.ok.injEq] at hres
    exact hres.symm
  subst ht2
  refine ⟨?_, ?_, ?_, ?_, ?_, ?_, rfl, rfl⟩
  · intro h; simp [mergeTodo, h]
  · intro h; simp [mergeTodo, h]
  · intro h; simp [mergeTodo, h]
  · intro s h; simp [mergeTodo, h]
  · intro d h; simp [mergeTodo, h]
  · intro b h; simp [mergeTodo, h]

/-- Witness for C1: updating only the title of the fixture record leaves
description and completed at their prior values. -/
theorem claim_C1_witness :
    exUpdatedTitle.description = exTodo.description ∧
    exUpdatedTitle.completed = exTodo.completed ∧
    exUpdatedTitle.title = "Only Title Updated" := by
  have h := claim_C1 exDB { id := 1, title := some "Only Title Updated" } 7
    exTodo exUpdatedTitle rfl rfl
  exact ⟨h.2.1 rfl, h.2.2.1 rfl, h.2.2.2.1 "Only Title Updated" rfl⟩

/-- Claim C2: for every id with no corresponding record, the update operation
fails with NotFound and returns the stored state entirely unchanged. -/
theorem claim_C2 (db : DB) (input : UpdateTodoInput) (now : Nat)
    (habs : ∀ t ∈ db.todos, t.id ≠ input.id) :
    updateTodo db input now = (Except.error "Todo not found", db) := by
  have hfind : findById db.todos input.id = none := by
    apply List.find?_eq_none.mpr
    intro t ht
    simpa using habs t ht
  simp [updateTodo, hfind]

/-- Witness for C2: updating the absent id 999 fails with NotFound and leaves
the one-record state unchanged. -/
theorem claim_C2_witness :
    updateTodo exDB { id := 999, title := some "This will fail" } 7 =
      (Except.error "Todo not found", exDB) :=
  claim_C2 exDB { id := 999, title := some "This will fail" } 7 (by decide)

/-- Claim C3: the update operation distinguishes an omitted description from
description explicitly set to null: on an existing todo with a non-null
description, supplying description = null clears it while leaving title and
completed unchanged, whereas omitting description leaves the whole record,
apart from updated_at, unchanged. -/
theorem claim_C3 (db : DB) (i now : Nat) (t : Todo) (d : String)
    (hfind : findById db.todos i = some t) (_hdesc : t.description = some d) :
    ((updateTodo db { id := i, description := some none } now).1 =
       Except.ok { t with description := none, updated_at := now }) ∧
    ((updateTodo db { id := i } now).1 = Except.ok { t with updated_at := now }) := by
  constructor
  · simp [updateTodo, hfind, mergeTodo]
  · simp [updateTodo, hfind, mergeTodo]

/-- Witness for C3: on the fixture record, explicit null clears the
description and an input with no description keeps it. -/
theorem claim_C3_witness :
    ((updateTodo exDB { id := 1, description := some none } 7).1 =
       Except.ok { exTodo with description := none, updated_at := 7 }) ∧
    ((updateTodo exDB { id := 1 } 7).1 =
       Except.ok { exTodo with updated_at := 7 }) :=
  claim_C3 exDB 1 7 exTodo "Original description" rfl rfl

/-- Claim C4: every successful update call sets updated_at to the current
time, so when the clock has advanced past the stored updated_at the new
updated_at is strictly greater than the old one, for every input, including
one whose supplied values equal the existing values. -/
theorem claim_C4 (db : DB) (input : UpdateTodoInput) (now : Nat) (t t2 : Todo)
    (hfind : findById db.todos input.id = some t)
    (hclock : t.updated_at < now)
    (hres : (updateTodo db input now).1 = Except.ok t2) :
    t2.updated_at = now ∧ t.updated_at < t2.updated_at := by
  have ht2 : t2 = mergeTodo t input now := by
    simp only [updateTodo, hfind, Except.ok.injEq] at hres
    exact hres.symm
  subst ht2
  exact ⟨rfl, hclock⟩

/-- Witness for C4: an update that supplies the very same title still stamps
updated_at to the later clock value 7, strictly above the stored 5. -/
theorem claim_C4_witness :
    ({ exTodo with updated_at := 7 } : Todo).updated_at = 7 ∧
    exTodo.updated_at < ({ exTodo with updated_at := 7 } : Todo).updated_at :=
  claim_C4 exDB { id := 1, title := some "Original Todo" } 7 exTodo
    { exTodo with updated_at := 7 } rfl (by decide) rfl

/-- Looking a record up in a mapped table, when the mapping preserves ids,
finds the image of the record found in the original table. -/
theorem findById_map_congr (xs : List Todo) (f : Todo → Todo)
    (hf : ∀ u ∈ xs, (f u).id = u.id) (i : Nat) :
    findById (xs.map f) i = Option.map f (findById xs i) := by
  induction xs with
  | nil => rfl
  | cons x xs ih =>
      have hx : (f x).id = x.id := hf x (List.mem_cons_self x xs)
      have ih2 := ih (fun u hu => hf u (List.mem_cons_of_mem x hu))
      simp only [findById, List.map_cons, List.find?_cons, hx] at ih2 ⊢
      by_cases hc : (x.id == i) = true
      · simp [hc]
      · simp [hc, ih2]

/-- Claim C5: in every reachable state every stored todo satisfies
updated_at at least created_at, and an update call never changes the
created_at of the record any id looks up to (lookups after the call see the
same created_at as before it). -/
theorem claim_C5 :
    (∀ db : DB, Reachable db → ∀ t ∈ db.todos, t.created_at ≤ t.updated_at) ∧
    (∀ (db : DB) (input : UpdateTodoInput) (now i : Nat),
       Option.map Todo.created_at (findById (updateTodo db input now).2.todos i) =
       Option.map Todo.created_at (findById db.todos i)) := by
  constructor
  · intro db hdb t ht
    exact (reachable_timeInv hdb t ht).1
  · intro db input now i
    rcases hfind : findById db.todos input.id with _ | t0
    · simp [updateTodo, hfind]
    · have hid0 := List.find?_some hfind
      have hid : (t0.id == input.id) = true := hid0
      have htodos : (updateTodo db input now).2.todos =
          db.todos.map
            (fun u => if u.id == input.id then mergeTodo t0 input now else u) := by
        simp [updateTodo, hfind]
      have hf : ∀ u ∈ db.todos,
          ((fun u => if u.id == input.id then mergeTodo t0 input now else u) u).id
            = u.id := by
        intro u _
        by_cases hc : (u.id == input.id) = true
        · have h1 : t0.id = input.id := by simpa using hid
          have h2 : u.id = input.id := by simpa using hc
          simp [hc, mergeTodo, h1, h2]
        · simp [hc]
      rw [htodos, findById_map_congr db.todos _ hf i]
      by_cases hii : i = input.id
      · subst hii
        rw [hfind]
        have h1 : t0.id = input.id := by simpa using hid
        simp [mergeTodo, h1]
      · rcases h2 : findById db.todos i with _ | u
        · rfl
        · have hui0 := List.find?_some h2
          have hui : u.id = i := by simpa using hui0
          have huc : ¬ u.id = input.id := by
            rw [hui]
            exact hii
          simp [huc]

/-- Witness for C5: in the state reached by a single create at clock 5, the
created record satisfies created_at at most updated_at. -/
theorem claim_C5_witness :
    (newTodo initDB { title := "T" } 5).created_at ≤
      (newTodo initDB { title := "T" } 5).updated_at :=
  claim_C5.1 (createTodo initDB { title := "T" } 5).2
    (Reachable.step Reachable.init
      (Step.create initDB { title := "T" } 5 (by decide)))
    (newTodo initDB { title := "T" } 5) (by simp [createTodo])

/-- Claim C6: the delete operation never fails with NotFound: its success
flag is true exactly when a record with the id existed, a get on the id after
the delete fails with NotFound, and deleting the same id again reports
success = false. -/
theorem claim_C6 (db : DB) (i : Nat) :
    ((deleteTodo db i).1.success = (findById db.todos i).isSome) ∧
    (getTodo (deleteTodo db i).2 i = Except.error "Todo not found") ∧
    ((deleteTodo (deleteTodo db i).2 i).1.success = false) := by
  have hkeep : ∀ u ∈ db.todos.filter (fun t => !(t.id == i)), ¬ (u.id == i) = true := by
    intro u hu
    have := (List.mem_filter.mp hu).2
    simpa using this
  have hnone : findById (db.todos.filter (fun t => !(t.id == i))) i = none :=
    List.find?_eq_none.mpr hkeep
  refine ⟨?_, ?_, ?_⟩
  · rcases hfind : findById db.todos i with _ | u
    · have hall : ∀ u ∈ db.todos, ¬ (u.id == i) = true := List.find?_eq_none.mp hfind
      have hself : db.todos.filter (fun t => !(t.id == i)) = db.todos := by
        apply List.filter_eq_self.mpr
        intro a ha
        simpa using hall a ha
      simp [deleteTodo, hself]
    · have hu : u ∈ db.todos := List.mem_of_find?_eq_some hfind
      have hui0 := List.find?_some hfind
      have hui : (u.id == i) = true := hui0
      have hlt : (db.todos.filter (fun t => !(t.id == i))).length < db.todos.length := by
        apply List.length_filter_lt_length_iff_exists.mpr
        exact ⟨u, hu, by simp [hui]⟩
      simp [deleteTodo, hlt]
  · simp [getTodo, deleteTodo, hnone]
  · have hself : (db.todos.filter (fun t => !(t.id == i))).filter (fun t => !(t.id == i))
        = db.todos.filter (fun t => !(t.id == i)) := by
      apply List.filter_eq_self.mpr
      intro a ha
      simpa using hkeep a ha
    simp [deleteTodo, hself]

/-- Claim C7: deleting one record removes exactly the records carrying the
given id and leaves every other record, its id and field values, unchanged
and in order (the remaining table is a sublist of the original, membership is
the set difference, and the other state components are untouched). -/
theorem claim_C7 (db : DB) (i : Nat) :
    (List.Sublist (deleteTodo db i).2.todos db.todos) ∧
    (∀ t : Todo, t ∈ (deleteTodo db i).2.todos ↔ (t ∈ db.todos ∧ t.id ≠ i)) ∧
    ((deleteTodo db i).2.nextId = db.nextId) := by
  refine ⟨?_, ?_, rfl⟩
  · simp [deleteTodo]
  · intro t
    simp [deleteTodo, List.mem_filter]

/-- Claim C8: for every id, get returns the exact stored record when one with
that id exists, and fails with NotFound when no record has that id. -/
theorem claim_C8 (db : DB) (i : Nat) :
    ((∀ t ∈ db.todos, t.id ≠ i) → getTodo db i = Except.error "Todo not found") ∧
    (∀ t, findById db.todos i = some t → getTodo db i = Except.ok t) := by
  constructor
  · intro habs
    have hfind : findById db.todos i = none :=
      List.find?_eq_none.mpr (fun t ht => by simpa using habs t ht)
    simp [getTodo, hfind]
  · intro t hfind
    simp [getTodo, hfind]

/-- Witness for C8: in the two-record state, getting id 2 returns the stored
record with its null description intact, and getting id 999 fails. -/
theorem claim_C8_witness :
    getTodo exDB2 2 = Except.ok exTodoNull ∧
    getTodo exDB2 999 = Except.error "Todo not found" :=
  ⟨(claim_C8 exDB2 2).2 exTodoNull rfl, (claim_C8 exDB2 999).1 (by decide)⟩

/-- Claim C9: creating a todo from a title and no description yields a
persisted record with that title, a null description, completed = false,
equal timestamps, and the storage-assigned id. -/
theorem claim_C9 (db : DB) (s : String) (now : Nat) :
    ((createTodo db { title := s } now).1.title = s) ∧
    ((createTodo db { title := s } now).1.description = none) ∧
    ((createTodo db { title := s } now).1.completed = false) ∧
    ((createTodo db { title := s } now).1.created_at =
      (createTodo db { title := s } now).1.updated_at) ∧
    ((createTodo db { title := s } now).1.id = db.nextId) ∧
    ((createTodo db { title := s } now).1 ∈ (createTodo db { title := s } now).2.todos) := by
  refine ⟨rfl, rfl, rfl, rfl, rfl, ?_⟩
  simp [createTodo]

/-- Claim C10: the client delete handler, once the delete mutation resolves,
drops the todo with the given id from the displayed list and keeps every
other displayed todo unchanged and in order, and its result is the same
whatever success flag the server response carried, the response being
discarded. -/
theorem claim_C10 (todos : List Todo) (todoId : Nat) (r1 r2 : DeleteResult) :
    (handleDeleteTodo r1 todos todoId = handleDeleteTodo r2 todos todoId) ∧
    (∀ t : Todo, t ∈ handleDeleteTodo r1 todos todoId ↔ (t ∈ todos ∧ t.id ≠ todoId)) ∧
    (List.Sublist (handleDeleteTodo r1 todos todoId) todos) := by
  refine ⟨rfl, ?_, ?_⟩
  · intro t
    simp [handleDeleteTodo, List.mem_filter]
  · simp [handleDeleteTodo]
